import Mathlib

/-!
Verification development for the CineGen storyboard generator.

The definitions below are a shallow embedding of the meaningful logic of the
repository: the image normalizer and generation client
(src/services/geminiService.ts), the validation and sequential generation
orchestrator (src/App.tsx handleGenerate / handleClear), and the data model
(src/types.ts).  Browser and network effects are made explicit: the random id
source of generateId is a stream of strings, the outcome of each network call
is an oracle from call index to result, and image decoding or canvas-context
acquisition is an explicit input.
-/

/-! ## Data model (src/types.ts) -/

/-- ShotConfig from src/types.ts: a user-authored shot description. -/
structure ShotConfig where
  shot_type : String
  aspect_ratio : String
  prompt : String
deriving Repr, DecidableEq, Inhabited

/-- GenerationStatus from src/types.ts. -/
inductive GenerationStatus where
  | IDLE
  | PENDING
  | SUCCESS
  | ERROR
deriving Repr, DecidableEq, Inhabited

/-- GeneratedShot from src/types.ts: a ShotConfig plus an id, a status and
optional imageUrl and error fields. -/
structure GeneratedShot extends ShotConfig where
  id : String
  status : GenerationStatus
  imageUrl : Option String := none
  error : Option String := none
deriving Repr, DecidableEq, Inhabited

/-! ## Image normalizer (src/services/geminiService.ts, resizeImage) -/

/-- Pixel dimensions of a decoded image. -/
structure Dims where
  width : Nat
  height : Nat
deriving Repr, DecidableEq, Inhabited

/-- Math.round (a / b) for nonnegative operands, modelled in exact integer
arithmetic: the nearest integer to a / b with ties rounded up, computed as
(2a + b) / (2b) in natural division.  This models the JS expression
Math.round ((height * maxWidth) / width) of resizeImage. -/
def jsRound (a b : Nat) : Nat :=
  (2 * a + b) / (2 * b)

/-- The dimension computation of resizeImage
(src/services/geminiService.ts lines 17-32): if width > height the width is
clamped to maxWidth and the height scaled proportionally (rounded), otherwise
the height is clamped to maxHeight and the width scaled proportionally. -/
def resizeDims (maxWidth maxHeight : Nat) (d : Dims) : Dims :=
  if d.width > d.height then
    if d.width > maxWidth then
      { width := maxWidth, height := jsRound (d.height * maxWidth) d.width }
    else d
  else
    if d.height > maxHeight then
      { width := jsRound (d.width * maxHeight) d.height, height := maxHeight }
    else d

/-- resizeImage (src/services/geminiService.ts lines 11-55).  The browser
effects are explicit inputs: `decoded` is the result of loading the input
data URI (`none` models the onerror path), `ctxOk` models whether
canvas.getContext returned a context, and `encode` models
canvas.toDataURL with image/jpeg at quality 0.8 on the drawn canvas of the
given dimensions.  The promise only ever resolves, so the embedding is a
total function returning the resulting string. -/
def resizeImage (encode : Dims → String) (base64Str : String)
    (decoded : Option Dims) (ctxOk : Bool) : String :=
  match decoded with
  | none => base64Str
  | some d =>
    if ctxOk then encode (resizeDims 1024 1024 d)
    else base64Str

/-! ## Generation client (src/services/geminiService.ts, generateStoryboardFrame) -/

/-- An inlineData part payload of the API response. -/
structure InlineData where
  mimeType : String
  data : String
deriving Repr, DecidableEq, Inhabited

/-- One part of a response candidate: optional text and optional inline
image data. -/
structure ResponsePart where
  text : Option String := none
  inlineData : Option InlineData := none
deriving Repr, DecidableEq, Inhabited

/-- The content of a response candidate. -/
structure ResponseContent where
  parts : List ResponsePart
deriving Repr, DecidableEq, Inhabited

/-- One candidate of the API response. -/
structure ResponseCandidate where
  content : ResponseContent
deriving Repr, DecidableEq, Inhabited

/-- The API response shape read by generateStoryboardFrame: an optional list
of candidates. -/
structure GenerateContentResponse where
  candidates : Option (List ResponseCandidate)
deriving Repr, DecidableEq, Inhabited

/-- The part scan of generateStoryboardFrame (lines 107-112): the first part
whose inlineData is present with truthy (non-empty) data. -/
def findInlineImage : List ResponsePart → Option String
  | [] => none
  | p :: ps =>
    match p.inlineData with
    | some d => if d.data = "" then findInlineImage ps else some d.data
    | none => findInlineImage ps

/-- The error message thrown when no image part is found (line 115). -/
def noImageMessage : String :=
  "No image data found in response. The model may have blocked the request or returned only text."

/-- generateStoryboardFrame (src/services/geminiService.ts lines 60-121),
as a function of the network call outcome: `callResult` is either the
response object or the message of the error thrown by the call.  The
surrounding try/catch rethrows with `error.message || fallback`, so an empty
underlying message is replaced by the fallback text. -/
def generateStoryboardFrame (callResult : Except String GenerateContentResponse) :
    Except String String :=
  match callResult with
  | .error msg => .error (if msg = "" then "Failed to generate image" else msg)
  | .ok resp =>
    match resp.candidates with
    | some (c :: _) =>
      match findInlineImage c.content.parts with
      | some data => .ok ("data:image/png;base64," ++ data)
      | none => .error noImageMessage
    | _ => .error noImageMessage

/-! ## Sequential orchestrator (src/App.tsx, handleGenerate / handleClear) -/

deriving instance DecidableEq for Except

/-- A fresh pending record as built by handleGenerate (src/App.tsx lines
92-96): the spread of the config plus a generated id and PENDING status.
The id string is the value produced by generateId, i.e. by one draw of
Math.random().toString(36).substring(7). -/
def mkPendingShot (idStr : String) (c : ShotConfig) : GeneratedShot :=
  { toShotConfig := c, id := idStr, status := GenerationStatus.PENDING }

/-- The initialShots list of handleGenerate: one pending record per config,
in input order, where `ids` is the stream of successive generateId outputs
(generateId is called once per element, in order, by the map). -/
def initialShots (ids : Nat → String) (configs : List ShotConfig) : List GeneratedShot :=
  configs.enum.map (fun p => mkPendingShot (ids p.1) p.2)

/-- The record rewrite performed by the two setShots callbacks of the loop
body (src/App.tsx lines 107-117): on success the status becomes SUCCESS and
imageUrl is set; on failure the status becomes ERROR and error is set. -/
def resolveShot (s : GeneratedShot) : Except String String → GeneratedShot
  | .ok imageUrl => { s with status := GenerationStatus.SUCCESS, imageUrl := some imageUrl }
  | .error msg => { s with status := GenerationStatus.ERROR, error := some msg }

/-- One setShots functional update of the loop body: every record whose id
equals the target id is rewritten by resolveShot, all others are kept. -/
def applyResult (targetId : String) (r : Except String String)
    (l : List GeneratedShot) : List GeneratedShot :=
  l.map (fun s => if s.id = targetId then resolveShot s r else s)

/-- One iteration of the for loop at index i: the shot is read from the
initialShots list captured by the closure, and the outcome of its awaited
generateStoryboardFrame call (the oracle `net i`) is applied to the current
shots state by id. -/
def stepShot (net : Nat → Except String String) (init : List GeneratedShot)
    (st : List GeneratedShot) (i : Nat) : List GeneratedShot :=
  match init[i]? with
  | some s => applyResult s.id (net i) st
  | none => st

/-- The shots state after the first k iterations of the loop, starting from
the initialShots list installed by setShots(initialShots). -/
def stateAfter (net : Nat → Except String String) (init : List GeneratedShot)
    (k : Nat) : List GeneratedShot :=
  (List.range k).foldl (stepShot net init) init

/-- The shots state when the loop has processed the whole list. -/
def runFinal (net : Nat → Except String String) (init : List GeneratedShot) :
    List GeneratedShot :=
  stateAfter net init init.length

/-- Observable events of a generation run, in the order the orchestrator
performs them: the single setShots that installs all pending records, then
for each index the awaited API call and the status update it resolves to. -/
inductive RunEvent where
  | initRecords (shots : List GeneratedShot)
  | apiCall (i : Nat) (id : String)
  | statusUpdate (i : Nat) (id : String) (result : Except String String)
deriving Repr, DecidableEq

/-- The two events of loop iteration i: the call for the shot at index i of
the captured initialShots list, then its resolution. -/
def shotEvents (net : Nat → Except String String) (init : List GeneratedShot)
    (i : Nat) : List RunEvent :=
  match init[i]? with
  | some s => [RunEvent.apiCall i s.id, RunEvent.statusUpdate i s.id (net i)]
  | none => []

/-- The event trace of a run over the captured initialShots list: the
initial setShots first, then the call/update pair of each index in input
order (the loop awaits each call before starting the next). -/
def runTraceOf (net : Nat → Except String String) (init : List GeneratedShot) :
    List RunEvent :=
  RunEvent.initRecords init :: (List.range init.length).flatMap (shotEvents net init)

/-- Projection selecting the API-call events of a trace. -/
def callIndexOf : RunEvent → Option Nat
  | RunEvent.apiCall i _ => some i
  | _ => none

/-! ## JSON validation (src/App.tsx, validateAndParseJson) -/

/-- JSON values as produced by JSON.parse. -/
inductive JsonValue where
  | jnull
  | jbool (b : Bool)
  | jnum (n : Rat)
  | jstr (s : String)
  | jarr (items : List JsonValue)
  | jobj (fields : List (String × JsonValue))

/-- JS truthiness of a property-access result, where `none` models the
undefined value of a missing property. -/
def truthy : Option JsonValue → Bool
  | none => false
  | some JsonValue.jnull => false
  | some (JsonValue.jbool b) => b
  | some (JsonValue.jnum n) => n != 0
  | some (JsonValue.jstr s) => s != ""
  | some (JsonValue.jarr _) => true
  | some (JsonValue.jobj _) => true

/-- JS property access item.k on a JSON.parse result: a TypeError is thrown
on null (the only non-object JSON value whose property access throws);
objects yield the field (duplicate keys resolve to the last occurrence, as
in JSON.parse); every other value yields undefined. -/
def getField : JsonValue → String → Except Unit (Option JsonValue)
  | JsonValue.jnull, _ => Except.error ()
  | JsonValue.jobj fields, k => Except.ok (fields.reverse.lookup k)
  | _, _ => Except.ok none

/-- The per-item check item.shot_type && item.prompt of validateAndParseJson
(src/App.tsx line 62), with JS short-circuit evaluation: the second access
is only performed when the first is truthy. -/
def itemOk (v : JsonValue) : Except Unit Bool :=
  match getField v "shot_type" with
  | Except.error e => Except.error e
  | Except.ok st =>
    if truthy st then
      match getField v "prompt" with
      | Except.error e => Except.error e
      | Except.ok p => Except.ok (truthy p)
    else Except.ok false

/-- Array.prototype.every over itemOk, stopping at the first falsy item as
every does, and propagating a thrown TypeError. -/
def everyTruthy : List JsonValue → Except Unit Bool
  | [] => Except.ok true
  | x :: xs =>
    match itemOk x with
    | Except.error e => Except.error e
    | Except.ok b => if b then everyTruthy xs else Except.ok false

/-- validateAndParseJson (src/App.tsx lines 54-73) as a function of the
JSON.parse result (`none` models a parse failure): the returned value is
either the parsed array or the validation message the function stores in
validationError before returning null. -/
def validateAndParseJson : Option JsonValue → Except String (List JsonValue)
  | none => Except.error "Invalid JSON format."
  | some (JsonValue.jarr items) =>
    match everyTruthy items with
    | Except.error _ => Except.error "Invalid JSON format."
    | Except.ok true => Except.ok items
    | Except.ok false =>
      Except.error "Each shot must have \x27shot_type\x27 and \x27prompt\x27 fields."
  | some _ => Except.error "JSON must be an array of shot objects."

/-- Projection of a validated item to the ShotConfig fields that the code
subsequently spreads into the GeneratedShot record.  The TS source performs
no conversion (the parsed array is cast to ShotConfig[]); a missing or
non-string field is projected to the empty string here, and no verified
claim depends on the projected values. -/
def toShotConfig (v : JsonValue) : ShotConfig :=
  let fieldStr := fun k =>
    match getField v k with
    | Except.ok (some (JsonValue.jstr s)) => s
    | _ => ""
  { shot_type := fieldStr "shot_type"
    aspect_ratio := fieldStr "aspect_ratio"
    prompt := fieldStr "prompt" }

/-! ## App state and handlers (src/App.tsx) -/

/-- The pieces of App component state that the claims concern. -/
structure AppState where
  shots : List GeneratedShot
  isGenerating : Bool
  validationError : Option String
deriving Repr, DecidableEq

/-- handleGenerate (src/App.tsx lines 75-125) as a state transformer, also
returning the event trace of the run it starts.  `refImage` is the uploaded
reference image (none triggers the alert-and-return path), `hasApiKey`
models isApiKeyAvailable, `parsed` is the JSON.parse result of the shot-list
text, `ids` the generateId stream and `net` the per-index network oracle.
The three guard paths perform no generation call, so their trace is empty. -/
def handleGenerate (refImage : Option String) (hasApiKey : Bool)
    (parsed : Option JsonValue) (ids : Nat → String)
    (net : Nat → Except String String) (st : AppState) : AppState × List RunEvent :=
  match refImage with
  | none => (st, [])
  | some _ =>
    match validateAndParseJson parsed with
    | Except.error msg => ({ st with validationError := some msg }, [])
    | Except.ok items =>
      if hasApiKey then
        let init := initialShots ids (items.map toShotConfig)
        ({ shots := runFinal net init, isGenerating := false, validationError := none },
          runTraceOf net init)
      else
        ({ st with
            validationError := some "API Key missing in environment (process.env.API_KEY)." },
          [])

/-- handleClear (src/App.tsx lines 127-130): empties the shots list and
clears the generating flag. -/
def handleClear (st : AppState) : AppState :=
  { st with shots := [], isGenerating := false }

/-- Replay of a sequence of by-id status updates (the setShots callbacks
still arriving from an in-flight loop) against a shots state. -/
def applyUpdates (l : List GeneratedShot)
    (updates : List (String × Except String String)) : List GeneratedShot :=
  updates.foldl (fun acc u => applyResult u.1 u.2 acc) l

/-! ## Concrete sample inputs used by the witness theorems -/

/-- Two concrete shot configurations. -/
def sampleConfigs : List ShotConfig :=
  [{ shot_type := "Wide Shot", aspect_ratio := "16:9", prompt := "alley" },
   { shot_type := "Close Up", aspect_ratio := "16:9", prompt := "face" }]

/-- A concrete id stream whose first two values differ. -/
def sampleIds : Nat → String := fun n => if n = 0 then "a" else "b"

/-- A concrete network oracle: the first call fails, later calls succeed. -/
def sampleNet : Nat → Except String String :=
  fun n => if n = 0 then Except.error "boom" else Except.ok "img-data"

/-- The initial record list of the sample run. -/
def sampleInit : List GeneratedShot := initialShots sampleIds sampleConfigs

/-- A validated item carrying shot_type and prompt but no aspect_ratio. -/
def sampleGoodItem : JsonValue :=
  JsonValue.jobj [("shot_type", JsonValue.jstr "Wide Shot"),
                  ("prompt", JsonValue.jstr "alley")]

/-- An object item lacking the prompt field. -/
def sampleBadItem : JsonValue :=
  JsonValue.jobj [("shot_type", JsonValue.jstr "Wide Shot")]

/-- An empty app state. -/
def sampleState : AppState :=
  { shots := [], isGenerating := false, validationError := none }

/-- The record the sample run resolves at position 0 (its call fails). -/
def sampleErrShot : GeneratedShot :=
  { shot_type := "Wide Shot", aspect_ratio := "16:9", prompt := "alley",
    id := "a", status := GenerationStatus.ERROR, imageUrl := none, error := some "boom" }

/-- The pending record of the sample run at position 0. -/
def samplePendingShot : GeneratedShot :=
  { shot_type := "Wide Shot", aspect_ratio := "16:9", prompt := "alley",
    id := "a", status := GenerationStatus.PENDING, imageUrl := none, error := none }

/-- The record samplePendingShot becomes when resolved with Except.ok u. -/
def sampleOkShot : GeneratedShot :=
  { shot_type := "Wide Shot", aspect_ratio := "16:9", prompt := "alley",
    id := "a", status := GenerationStatus.SUCCESS, imageUrl := some "u", error := none }

/-! ## Helper lemmas: rounding and the normalizer -/

theorem two_mul_abs_le {x c : ℤ} (h1 : -c ≤ 2 * x) (h2 : 2 * x ≤ c) :
    2 * |x| ≤ c := by
  rcases abs_cases x with ⟨he, _⟩ | ⟨he, _⟩ <;> rw [he] <;> linarith

theorem jsRound_bounds (a b : Nat) (hb : 0 < b) :
    2 * b * jsRound a b ≤ 2 * a + b ∧ 2 * a + b < 2 * b * jsRound a b + 2 * b := by
  unfold jsRound
  have h1 := Nat.div_add_mod (2 * a + b) (2 * b)
  have h2 : (2 * a + b) % (2 * b) < 2 * b := Nat.mod_lt _ (by omega)
  omega

/-- C5: an image strictly smaller than the 1024 maximum in both dimensions is
left with unchanged pixel dimensions; the output is only the re-encoding
(image/jpeg at quality 0.8, modelled by `encode`) of the same dimensions. -/
theorem smaller_image_dims_unchanged (encode : Dims → String) (s : String) (d : Dims)
    (hw : d.width < 1024) (hh : d.height < 1024) :
    resizeDims 1024 1024 d = d ∧
    resizeImage encode s (some d) true = encode d := by
  have hd : resizeDims 1024 1024 d = d := by
    unfold resizeDims
    by_cases h1 : d.width > d.height
    · rw [if_pos h1, if_neg (by omega)]
    · rw [if_neg h1, if_neg (by omega)]
  exact ⟨hd, by simp [resizeImage, hd]⟩

theorem smaller_image_dims_unchanged_witness :
    resizeDims 1024 1024 { width := 800, height := 600 } = { width := 800, height := 600 } ∧
    resizeImage (fun _ => "reencoded") "orig" (some { width := 800, height := 600 }) true
      = "reencoded" :=
  smaller_image_dims_unchanged (fun _ => "reencoded") "orig"
    { width := 800, height := 600 } (by decide) (by decide)

/-- C4: an image whose larger dimension exceeds 1024 is scaled so that its
larger output dimension is exactly 1024, and the other dimension is the
proportional value up to rounding: twice the cross-product defect of the
output ratio against the input ratio is at most the larger input dimension. -/
theorem larger_image_clamped (d : Dims) (hw : 0 < d.width) (hh : 0 < d.height)
    (hbig : 1024 < max d.width d.height) :
    max (resizeDims 1024 1024 d).width (resizeDims 1024 1024 d).height = 1024 ∧
    2 * |((resizeDims 1024 1024 d).width : ℤ) * (d.height : ℤ)
        - ((resizeDims 1024 1024 d).height : ℤ) * (d.width : ℤ)|
      ≤ (max d.width d.height : ℤ) := by
  obtain ⟨w, h⟩ := d
  simp only at hw hh hbig
  by_cases hwh : w > h
  · have hw1024 : 1024 < w := by omega
    have hd : resizeDims 1024 1024 { width := w, height := h }
        = { width := 1024, height := jsRound (h * 1024) w } := by
      unfold resizeDims
      rw [if_pos (by simpa using hwh), if_pos (by simpa using hw1024)]
    rw [hd]
    simp only
    set q := jsRound (h * 1024) w with hq
    obtain ⟨hb1, hb2⟩ := jsRound_bounds (h * 1024) w (by omega)
    have hqle : q ≤ 1024 := by
      rw [hq]
      unfold jsRound
      have hlt : (2 * (h * 1024) + w) / (2 * w) < 1025 := by
        rw [Nat.div_lt_iff_lt_mul (by omega)]
        omega
      omega
    have hmax : max w h = w := by omega
    refine ⟨by omega, ?_⟩
    have hmaxz : max (w : ℤ) (h : ℤ) = (w : ℤ) := by exact_mod_cast hmax
    rw [hmaxz]
    have hb1z : (2 : ℤ) * w * q ≤ 2 * (h * 1024) + w := by exact_mod_cast hb1
    have hb2z : (2 : ℤ) * (h * 1024) + w < 2 * w * q + 2 * w := by exact_mod_cast hb2
    push_cast
    refine two_mul_abs_le ?_ ?_ <;> nlinarith [hb1z, hb2z]
  · have hh1024 : 1024 < h := by omega
    have hd : resizeDims 1024 1024 { width := w, height := h }
        = { width := jsRound (w * 1024) h, height := 1024 } := by
      unfold resizeDims
      rw [if_neg (by simpa using hwh), if_pos (by simpa using hh1024)]
    rw [hd]
    simp only
    set q := jsRound (w * 1024) h with hq
    obtain ⟨hb1, hb2⟩ := jsRound_bounds (w * 1024) h (by omega)
    have hqle : q ≤ 1024 := by
      rw [hq]
      unfold jsRound
      have hlt : (2 * (w * 1024) + h) / (2 * h) < 1025 := by
        rw [Nat.div_lt_iff_lt_mul (by omega)]
        omega
      omega
    have hmax : max w h = h := by omega
    refine ⟨by omega, ?_⟩
    have hmaxz : max (w : ℤ) (h : ℤ) = (h : ℤ) := by exact_mod_cast hmax
    rw [hmaxz]
    have hb1z : (2 : ℤ) * h * q ≤ 2 * (w * 1024) + h := by exact_mod_cast hb1
    have hb2z : (2 : ℤ) * (w * 1024) + h < 2 * h * q + 2 * h := by exact_mod_cast hb2
    push_cast
    refine two_mul_abs_le ?_ ?_ <;> nlinarith [hb1z, hb2z]

theorem larger_image_clamped_witness :
    max (resizeDims 1024 1024 { width := 2000, height := 500 }).width
        (resizeDims 1024 1024 { width := 2000, height := 500 }).height = 1024 ∧
    2 * |((resizeDims 1024 1024 { width := 2000, height := 500 }).width : ℤ) * (500 : ℤ)
        - ((resizeDims 1024 1024 { width := 2000, height := 500 }).height : ℤ) * (2000 : ℤ)|
      ≤ (max 2000 500 : ℤ) :=
  larger_image_clamped { width := 2000, height := 500 } (by decide) (by decide) (by decide)

/-- C6: the normalizer fails open.  When image decoding fails (onerror) or no
drawing context is available, resizeImage resolves with the original input
string unchanged; being a total function of its inputs, it never raises. -/
theorem resize_fails_open :
    (∀ (encode : Dims → String) (s : String) (ctxOk : Bool),
      resizeImage encode s none ctxOk = s) ∧
    (∀ (encode : Dims → String) (s : String) (d : Dims),
      resizeImage encode s (some d) false = s) :=
  ⟨fun _ _ _ => rfl, fun _ _ _ => rfl⟩

/-! ## Helper lemmas: the generation client -/

theorem findInlineImage_eq_none (parts : List ResponsePart)
    (h : ∀ p ∈ parts, ∀ dta, p.inlineData = some dta → dta.data = "") :
    findInlineImage parts = none := by
  induction parts with
  | nil => rfl
  | cons p ps ih =>
    have hps : findInlineImage ps = none :=
      ih (fun x hx => h x (List.mem_cons_of_mem p hx))
    cases hp : p.inlineData with
    | none => simp [findInlineImage, hp, hps]
    | some dta =>
      have hd : dta.data = "" := h p (List.mem_cons_self p ps) dta hp
      simp [findInlineImage, hp, hd, hps]

theorem findInlineImage_ne_empty (parts : List ResponsePart) (s : String)
    (h : findInlineImage parts = some s) : s ≠ "" := by
  induction parts with
  | nil => simp [findInlineImage] at h
  | cons p ps ih =>
    cases hp : p.inlineData with
    | none =>
      rw [show findInlineImage (p :: ps) = findInlineImage ps by
        simp [findInlineImage, hp]] at h
      exact ih h
    | some dta =>
      by_cases hz : dta.data = ""
      · rw [show findInlineImage (p :: ps) = findInlineImage ps by
          simp [findInlineImage, hp, hz]] at h
        exact ih h
      · have hsome : some dta.data = some s := by
          rw [← h]; simp [findInlineImage, hp, hz]
        obtain rfl : dta.data = s := Option.some_injective _ hsome
        exact hz

/-- C3 counterexample: a failed network call whose underlying message is the
empty string is not propagated unchanged; the catch block substitutes the
generic fallback text via error.message || fallback. -/
theorem error_message_not_always_unchanged :
    generateStoryboardFrame (Except.error "") ≠ Except.error "" := by
  simp [generateStoryboardFrame]

/-- C3 (amended): a non-empty underlying failure message is propagated to the
caller unchanged; a response in which no candidate part carries non-empty
inline image data yields the descriptive no-image error, never a success;
and every success carries a non-empty data URI built from non-empty inline
data. -/
theorem frame_error_propagation :
    (∀ msg : String, msg ≠ "" → generateStoryboardFrame (Except.error msg) = Except.error msg) ∧
    (∀ resp : GenerateContentResponse,
      (∀ cs, resp.candidates = some cs →
        ∀ c ∈ cs, ∀ p ∈ c.content.parts, ∀ dta, p.inlineData = some dta → dta.data = "") →
      generateStoryboardFrame (Except.ok resp) = Except.error noImageMessage) ∧
    (∀ (resp : GenerateContentResponse) (s : String),
      generateStoryboardFrame (Except.ok resp) = Except.ok s →
      s ≠ "" ∧ ∃ dta, dta ≠ "" ∧ s = "data:image/png;base64," ++ dta) := by
  refine ⟨?_, ?_, ?_⟩
  · intro msg hmsg
    simp [generateStoryboardFrame, hmsg]
  · intro resp h
    obtain ⟨cands⟩ := resp
    cases cands with
    | none => rfl
    | some l =>
      cases l with
      | nil => rfl
      | cons c cs =>
        have hforall := h (c :: cs) rfl c (List.mem_cons_self c cs)
        have hn := findInlineImage_eq_none c.content.parts hforall
        simp [generateStoryboardFrame, hn]
  · intro resp s h
    obtain ⟨cands⟩ := resp
    cases cands with
    | none => simp [generateStoryboardFrame] at h
    | some l =>
      cases l with
      | nil => simp [generateStoryboardFrame] at h
      | cons c cs =>
        cases hf : findInlineImage c.content.parts with
        | none => simp [generateStoryboardFrame, hf] at h
        | some dta =>
          simp only [generateStoryboardFrame, hf] at h
          have hs : "data:image/png;base64," ++ dta = s := by
            simpa using h
          have hdta : dta ≠ "" := findInlineImage_ne_empty _ _ hf
          refine ⟨?_, dta, hdta, hs.symm⟩
          intro hempty
          rw [← hs] at hempty
          have hlen : ("data:image/png;base64," ++ dta).length = (0 : Nat) := by
            rw [hempty]; rfl
          rw [String.length_append] at hlen
          have h22 : ("data:image/png;base64," : String).length = 22 := by decide
          omega

theorem frame_error_propagation_witness :
    generateStoryboardFrame (Except.error "network down") = Except.error "network down" ∧
    generateStoryboardFrame
      (Except.ok { candidates := some [{ content := { parts := [{ text := some "declined" }] } }] })
      = Except.error noImageMessage := by
  constructor
  · exact frame_error_propagation.1 "network down" (by decide)
  · refine frame_error_propagation.2.1 _ ?_
    intro cs hcs c hc p hp dta hdta
    obtain rfl : [({ content := { parts := [{ text := some "declined" }] } } : ResponseCandidate)] = cs :=
      Option.some_injective _ hcs
    simp at hc
    subst hc
    simp at hp
    subst hp
    simp at hdta

/-! ## Helper lemmas: orchestrator state -/

theorem resolveShot_core (s : GeneratedShot) (r : Except String String) :
    (resolveShot s r).id = s.id ∧ (resolveShot s r).shot_type = s.shot_type ∧
    (resolveShot s r).aspect_ratio = s.aspect_ratio ∧ (resolveShot s r).prompt = s.prompt := by
  cases r <;> exact ⟨rfl, rfl, rfl, rfl⟩

theorem resolveShot_status (s : GeneratedShot) (r : Except String String) :
    (resolveShot s r).status = GenerationStatus.SUCCESS ∨
    (resolveShot s r).status = GenerationStatus.ERROR := by
  cases r with
  | error m => exact Or.inr rfl
  | ok v => exact Or.inl rfl

theorem applyResult_length (t : String) (r : Except String String) (l : List GeneratedShot) :
    (applyResult t r l).length = l.length := by
  simp [applyResult]

theorem applyResult_getElem (t : String) (r : Except String String)
    (l : List GeneratedShot) (i : Nat) :
    (applyResult t r l)[i]? = (l[i]?).map (fun s => if s.id = t then resolveShot s r else s) := by
  simp [applyResult]

theorem initialShots_length (ids : Nat → String) (configs : List ShotConfig) :
    (initialShots ids configs).length = configs.length := by
  simp [initialShots]

theorem initialShots_getElem (ids : Nat → String) (configs : List ShotConfig) (i : Nat) :
    (initialShots ids configs)[i]? = (configs[i]?).map (fun c => mkPendingShot (ids i) c) := by
  simp [initialShots, List.getElem?_enum]
  cases configs[i]? <;> rfl

theorem initialShots_pending (ids : Nat → String) (configs : List ShotConfig) :
    ∀ s ∈ initialShots ids configs, s.status = GenerationStatus.PENDING := by
  intro s hs
  obtain ⟨p, _, rfl⟩ := List.mem_map.mp hs
  rfl

theorem stateAfter_succ (net : Nat → Except String String) (init : List GeneratedShot) (k : Nat) :
    stateAfter net init (k + 1) = stepShot net init (stateAfter net init k) k := by
  simp [stateAfter, List.range_succ]

theorem stateAfter_length (net : Nat → Except String String) (init : List GeneratedShot) (k : Nat) :
    (stateAfter net init k).length = init.length := by
  induction k with
  | zero => rfl
  | succ k ih =>
    rw [stateAfter_succ]
    unfold stepShot
    cases h : init[k]? with
    | none => exact ih
    | some s => rw [applyResult_length]; exact ih

theorem stateAfter_id (net : Nat → Except String String) (init : List GeneratedShot)
    (k i : Nat) :
    ((stateAfter net init k)[i]?).map GeneratedShot.id = (init[i]?).map GeneratedShot.id := by
  induction k with
  | zero => rfl
  | succ k ih =>
    rw [stateAfter_succ]
    unfold stepShot
    cases h : init[k]? with
    | none => exact ih
    | some s0 =>
      rw [applyResult_getElem]
      cases hsi : (stateAfter net init k)[i]? with
      | none => rw [hsi] at ih; simpa using ih
      | some t =>
        rw [hsi] at ih
        by_cases hid : t.id = s0.id
        · simp only [Option.map_some', if_pos hid]
          rw [(resolveShot_core t (net k)).1]
          exact ih
        · simp only [Option.map_some', if_neg hid]
          exact ih

theorem stateAfter_resolved (net : Nat → Except String String) (init : List GeneratedShot) :
    ∀ k i, i < k → ∀ s, (stateAfter net init k)[i]? = some s →
    s.status = GenerationStatus.SUCCESS ∨ s.status = GenerationStatus.ERROR := by
  intro k
  induction k with
  | zero => intro i hik; omega
  | succ k ih =>
    intro i hik s hs
    rw [stateAfter_succ] at hs
    unfold stepShot at hs
    cases h : init[k]? with
    | none =>
      rw [h] at hs
      rcases Nat.lt_succ_iff_lt_or_eq.mp hik with hlt | rfl
      · exact ih i hlt s hs
      · have hlen : init.length ≤ i := by
          by_contra hcon
          push_neg at hcon
          rw [List.getElem?_eq_getElem hcon] at h
          exact absurd h (by simp)
        have hnone : (stateAfter net init i)[i]? = none :=
          List.getElem?_eq_none (by rw [stateAfter_length]; exact hlen)
        rw [hnone] at hs
        exact absurd hs (by simp)
    | some s0 =>
      rw [h, applyResult_getElem] at hs
      cases hsi : (stateAfter net init k)[i]? with
      | none => rw [hsi] at hs; exact absurd hs (by simp)
      | some t =>
        rw [hsi] at hs
        simp only [Option.map_some'] at hs
        have hst : s = if t.id = s0.id then resolveShot t (net k) else t :=
          (Option.some_injective _ hs).symm
        rcases Nat.lt_succ_iff_lt_or_eq.mp hik with hlt | rfl
        · have ht := ih i hlt t hsi
          by_cases hid : t.id = s0.id
          · rw [hst, if_pos hid]; exact resolveShot_status t (net k)
          · rw [hst, if_neg hid]; exact ht
        · have hid : t.id = s0.id := by
            have hmap := stateAfter_id net init i i
            rw [hsi, h] at hmap
            simpa using hmap
          rw [hst, if_pos hid]
          exact resolveShot_status t (net i)

/-! ## Helper lemmas: the run trace -/

theorem shotEvents_of_lt (net : Nat → Except String String) (init : List GeneratedShot)
    (b : Nat) (hb : b < init.length) :
    ∃ s, init[b]? = some s ∧
      shotEvents net init b =
        [RunEvent.apiCall b s.id, RunEvent.statusUpdate b s.id (net b)] := by
  refine ⟨_, List.getElem?_eq_getElem hb, ?_⟩
  simp [shotEvents, List.getElem?_eq_getElem hb]

theorem flatMap_callIndices (net : Nat → Except String String) (init : List GeneratedShot) :
    ∀ bs : List Nat, (∀ b ∈ bs, b < init.length) →
    (bs.flatMap (shotEvents net init)).filterMap callIndexOf = bs := by
  intro bs
  induction bs with
  | nil => intro _; rfl
  | cons b bs ih =>
    intro hb
    obtain ⟨s, _, hse⟩ :=
      shotEvents_of_lt net init b (hb b (List.mem_cons_self b bs))
    have hrest := ih (fun x hx => hb x (List.mem_cons_of_mem b hx))
    have hcons : (b :: bs).flatMap (shotEvents net init) =
        shotEvents net init b ++ bs.flatMap (shotEvents net init) := by
      simp
    rw [hcons, List.filterMap_append, hse, hrest]
    rfl

theorem runTrace_calls (net : Nat → Except String String) (init : List GeneratedShot) :
    (runTraceOf net init).filterMap callIndexOf = List.range init.length := by
  unfold runTraceOf
  rw [List.filterMap_cons]
  simp only [callIndexOf]
  exact flatMap_callIndices net init (List.range init.length)
    (fun b hb => List.mem_range.mp hb)

theorem flatMap_pairing (net : Nat → Except String String) (init : List GeneratedShot) :
    ∀ bs : List Nat, (∀ b ∈ bs, b < init.length) →
    ∀ k i idStr, (bs.flatMap (shotEvents net init))[k]? = some (RunEvent.apiCall i idStr) →
    (bs.flatMap (shotEvents net init))[k + 1]? =
      some (RunEvent.statusUpdate i idStr (net i)) := by
  intro bs
  induction bs with
  | nil => intro _ k i idStr hk; simp at hk
  | cons b bs ih =>
    intro hb k i idStr hk
    obtain ⟨s, _, hse⟩ :=
      shotEvents_of_lt net init b (hb b (List.mem_cons_self b bs))
    have hexp : (b :: bs).flatMap (shotEvents net init) =
        RunEvent.apiCall b s.id :: RunEvent.statusUpdate b s.id (net b) ::
          bs.flatMap (shotEvents net init) := by
      simp [hse]
    rw [hexp] at hk ⊢
    match k with
    | 0 =>
      simp only [List.getElem?_cons_zero] at hk
      obtain ⟨rfl, rfl⟩ : b = i ∧ s.id = idStr := by
        have := Option.some_injective _ hk
        cases this
        exact ⟨rfl, rfl⟩
      simp
    | 1 => simp at hk
    | (k + 2) =>
      have hk2 : (bs.flatMap (shotEvents net init))[k]? = some (RunEvent.apiCall i idStr) := by
        simpa using hk
      have := ih (fun x hx => hb x (List.mem_cons_of_mem b hx)) k i idStr hk2
      simpa using this

theorem runTrace_pairing (net : Nat → Except String String) (init : List GeneratedShot)
    (k i : Nat) (idStr : String)
    (hk : (runTraceOf net init)[k]? = some (RunEvent.apiCall i idStr)) :
    (runTraceOf net init)[k + 1]? = some (RunEvent.statusUpdate i idStr (net i)) := by
  unfold runTraceOf at hk ⊢
  match k with
  | 0 => simp at hk
  | (k + 1) =>
    have hk2 : ((List.range init.length).flatMap (shotEvents net init))[k]?
        = some (RunEvent.apiCall i idStr) := by
      simpa using hk
    have := flatMap_pairing net init (List.range init.length)
      (fun b hb => List.mem_range.mp hb) k i idStr hk2
    simpa using this

theorem statusUpdate_mem_trace (net : Nat → Except String String)
    (init : List GeneratedShot) (i : Nat) (s : GeneratedShot)
    (hi : i < init.length) (hs : init[i]? = some s) :
    RunEvent.statusUpdate i s.id (net i) ∈ runTraceOf net init := by
  obtain ⟨s2, hs2, hse⟩ := shotEvents_of_lt net init i hi
  obtain rfl : s = s2 := Option.some_injective _ (hs ▸ hs2)
  unfold runTraceOf
  refine List.mem_cons_of_mem _ ?_
  rw [List.mem_flatMap]
  refine ⟨i, List.mem_range.mpr hi, ?_⟩
  rw [hse]
  simp

/-! ## Claim theorems: the sequential run (C1) -/

/-- C1: for every accepted shot list of length N, the run creates exactly N
records (all PENDING at the initial setShots, which is the first trace event,
before any API call), performs exactly the calls 0..N-1 in input order with
each call resolved by its status update before the next call starts, and
leaves every record of the final state either SUCCESS or ERROR. -/
theorem run_produces_n_records_in_order (ids : Nat → String)
    (net : Nat → Except String String) (configs : List ShotConfig) :
    (initialShots ids configs).length = configs.length ∧
    (runFinal net (initialShots ids configs)).length = configs.length ∧
    (∀ s ∈ initialShots ids configs, s.status = GenerationStatus.PENDING) ∧
    (runTraceOf net (initialShots ids configs)).head? =
      some (RunEvent.initRecords (initialShots ids configs)) ∧
    (runTraceOf net (initialShots ids configs)).filterMap callIndexOf =
      List.range configs.length ∧
    (∀ k i idStr,
      (runTraceOf net (initialShots ids configs))[k]? = some (RunEvent.apiCall i idStr) →
      (runTraceOf net (initialShots ids configs))[k + 1]?
        = some (RunEvent.statusUpdate i idStr (net i))) ∧
    (∀ s ∈ runFinal net (initialShots ids configs),
      s.status = GenerationStatus.SUCCESS ∨ s.status = GenerationStatus.ERROR) := by
  refine ⟨initialShots_length ids configs, ?_, initialShots_pending ids configs, rfl, ?_,
    fun k i idStr hk => runTrace_pairing net _ k i idStr hk, ?_⟩
  · unfold runFinal
    rw [stateAfter_length, initialShots_length]
  · rw [runTrace_calls, initialShots_length]
  · intro s hs
    obtain ⟨i, hi⟩ := List.mem_iff_getElem?.mp hs
    have hilt : i < (initialShots ids configs).length := by
      have := (List.getElem?_eq_some.mp hi).1
      unfold runFinal at this
      rw [stateAfter_length] at this
      exact this
    exact stateAfter_resolved net (initialShots ids configs)
      (initialShots ids configs).length i hilt s hi

theorem run_produces_n_records_in_order_witness :
    (runTraceOf sampleNet sampleInit)[2]? =
      some (RunEvent.statusUpdate 0 "a" (Except.error "boom")) ∧
    (sampleErrShot.status = GenerationStatus.SUCCESS ∨
      sampleErrShot.status = GenerationStatus.ERROR) :=
  ⟨(run_produces_n_records_in_order sampleIds sampleNet sampleConfigs).2.2.2.2.2.1
      1 0 "a" (by decide),
   (run_produces_n_records_in_order sampleIds sampleNet sampleConfigs).2.2.2.2.2.2
      _ (by decide)⟩

/-! ## Claim theorems: id uniqueness (C2) -/

/-- C2 counterexample: generateId draws from Math.random, which can repeat a
value (two draws of 0.5 both yield the substring of "0.i", and distinct
draws can share the substring past index 7), so a run in which the id stream
repeats a string produces records whose ids are not pairwise distinct. -/
theorem duplicate_ids_possible :
    ¬ ((initialShots (fun _ => "dup") sampleConfigs).map GeneratedShot.id).Nodup := by
  decide

theorem initialShots_get_id (ids : Nat → String) (configs : List ShotConfig)
    (i : Nat) (hi : i < (initialShots ids configs).length) :
    ((initialShots ids configs).get ⟨i, hi⟩).id = ids i := by
  have h1 : (initialShots ids configs)[i]? = some ((initialShots ids configs).get ⟨i, hi⟩) := by
    rw [List.getElem?_eq_getElem hi]
    simp
  rw [initialShots_getElem] at h1
  cases hc : configs[i]? with
  | none => rw [hc] at h1; exact absurd h1 (by simp)
  | some c =>
    rw [hc] at h1
    simp only [Option.map_some'] at h1
    rw [← Option.some_injective _ h1]
    rfl

/-- C2 (amended): all ids of a run are assigned in the initial setShots,
which is the first trace event, before any API call; and provided the
underlying id stream does not repeat a value within the run (the intent of
the Math.random-based generateId, violated only by a random collision), the
assigned ids are pairwise distinct, so an id identifies exactly one record
position. -/
theorem ids_assigned_before_first_call (ids : Nat → String)
    (net : Nat → Except String String) (configs : List ShotConfig)
    (hinj : ∀ i j, i < configs.length → j < configs.length → ids i = ids j → i = j) :
    ((initialShots ids configs).map GeneratedShot.id).Nodup ∧
    (runTraceOf net (initialShots ids configs)).head? =
      some (RunEvent.initRecords (initialShots ids configs)) ∧
    (∀ i j (hi : i < (initialShots ids configs).length)
        (hj : j < (initialShots ids configs).length),
      ((initialShots ids configs).get ⟨i, hi⟩).id
        = ((initialShots ids configs).get ⟨j, hj⟩).id → i = j) := by
  refine ⟨?_, rfl, ?_⟩
  · have hmap : (initialShots ids configs).map GeneratedShot.id
        = (List.range configs.length).map ids := by
      unfold initialShots
      rw [List.map_map]
      rw [show (GeneratedShot.id ∘ fun p : Nat × ShotConfig => mkPendingShot (ids p.1) p.2)
          = (ids ∘ Prod.fst) from rfl]
      rw [← List.map_map, List.enum_map_fst]
    rw [hmap]
    exact List.Nodup.map_on
      (fun x hx y hy hxy => hinj x y (List.mem_range.mp hx) (List.mem_range.mp hy) hxy)
      (List.nodup_range configs.length)
  · intro i j hi hj hij
    rw [initialShots_get_id ids configs i hi, initialShots_get_id ids configs j hj] at hij
    rw [initialShots_length] at hi hj
    exact hinj i j hi hj hij

theorem ids_assigned_before_first_call_witness :
    ((initialShots sampleIds sampleConfigs).map GeneratedShot.id).Nodup ∧
    (runTraceOf sampleNet (initialShots sampleIds sampleConfigs)).head? =
      some (RunEvent.initRecords (initialShots sampleIds sampleConfigs)) :=
  ⟨(ids_assigned_before_first_call sampleIds sampleNet sampleConfigs
      (by
        intro i j hi hj h
        have hi2 : i < 2 := by simpa [sampleConfigs] using hi
        have hj2 : j < 2 := by simpa [sampleConfigs] using hj
        interval_cases i <;> interval_cases j <;> revert h <;> decide)).1,
   (ids_assigned_before_first_call sampleIds sampleNet sampleConfigs
      (by
        intro i j hi hj h
        have hi2 : i < 2 := by simpa [sampleConfigs] using hi
        have hj2 : j < 2 := by simpa [sampleConfigs] using hj
        interval_cases i <;> interval_cases j <;> revert h <;> decide)).2.1⟩

/-! ## Claim theorems: failure isolation (C7), field immutability (C9),
cleared session (C10) -/

/-- C7: when the call at position i fails with a message, the run applies an
ERROR status update carrying that message for position i (the record at i is
set to ERROR with the message right when that update lands), and the trace
still contains exactly one call per index of the whole list, in input order:
no retry of i and no early termination. -/
theorem per_item_failure_isolated (ids : Nat → String)
    (net : Nat → Except String String) (configs : List ShotConfig)
    (i : Nat) (msg : String) (hi : i < configs.length)
    (hnet : net i = Except.error msg) :
    RunEvent.statusUpdate i (ids i) (Except.error msg) ∈
      runTraceOf net (initialShots ids configs) ∧
    (∀ s, (stateAfter net (initialShots ids configs) (i + 1))[i]? = some s →
      s.status = GenerationStatus.ERROR ∧ s.error = some msg) ∧
    (runTraceOf net (initialShots ids configs)).filterMap callIndexOf =
      List.range configs.length := by
  have hlen : i < (initialShots ids configs).length := by
    rw [initialShots_length]; exact hi
  obtain ⟨c, hc⟩ : ∃ c, configs[i]? = some c := ⟨_, List.getElem?_eq_getElem hi⟩
  have hinit : (initialShots ids configs)[i]? = some (mkPendingShot (ids i) c) := by
    rw [initialShots_getElem, hc]
    rfl
  refine ⟨?_, ?_, ?_⟩
  · have hmem := statusUpdate_mem_trace net (initialShots ids configs) i
      (mkPendingShot (ids i) c) hlen hinit
    rw [hnet] at hmem
    exact hmem
  · intro s hs
    rw [stateAfter_succ] at hs
    unfold stepShot at hs
    rw [hinit, applyResult_getElem] at hs
    cases hsi : (stateAfter net (initialShots ids configs) i)[i]? with
    | none => rw [hsi] at hs; exact absurd hs (by simp)
    | some t =>
      rw [hsi] at hs
      simp only [Option.map_some'] at hs
      have hid : t.id = (mkPendingShot (ids i) c).id := by
        have hmap := stateAfter_id net (initialShots ids configs) i i
        rw [hsi, hinit] at hmap
        simpa using hmap
      rw [if_pos hid, hnet] at hs
      rw [← Option.some_injective _ hs]
      exact ⟨rfl, rfl⟩
  · rw [runTrace_calls, initialShots_length]

theorem per_item_failure_isolated_witness :
    RunEvent.statusUpdate 0 (sampleIds 0) (Except.error "boom") ∈
      runTraceOf sampleNet (initialShots sampleIds sampleConfigs) ∧
    (sampleErrShot.status = GenerationStatus.ERROR ∧ sampleErrShot.error = some "boom") :=
  ⟨(per_item_failure_isolated sampleIds sampleNet sampleConfigs 0 "boom"
      (by decide) (by decide)).1,
   (per_item_failure_isolated sampleIds sampleNet sampleConfigs 0 "boom"
      (by decide) (by decide)).2.1 sampleErrShot (by decide)⟩

/-- C9: a by-id status update never changes the id, shot_type, aspect_ratio
or prompt of any record: the list keeps its length, every record keeps its
submitted ShotConfig data and its id, and a record whose id differs from the
target is left entirely unchanged. -/
theorem update_preserves_config_fields (t : String) (r : Except String String)
    (l : List GeneratedShot) :
    (applyResult t r l).length = l.length ∧
    (∀ (i : Nat) (s s2 : GeneratedShot), l[i]? = some s → (applyResult t r l)[i]? = some s2 →
      s2.id = s.id ∧ s2.shot_type = s.shot_type ∧ s2.aspect_ratio = s.aspect_ratio ∧
      s2.prompt = s.prompt ∧ (s.id ≠ t → s2 = s)) := by
  refine ⟨applyResult_length t r l, ?_⟩
  intro i s s2 hs hs2
  rw [applyResult_getElem, hs] at hs2
  simp only [Option.map_some'] at hs2
  have hval : s2 = if s.id = t then resolveShot s r else s :=
    (Option.some_injective _ hs2).symm
  by_cases hid : s.id = t
  · rw [hval, if_pos hid]
    obtain ⟨h1, h2, h3, h4⟩ := resolveShot_core s r
    exact ⟨h1, h2, h3, h4, fun hn => absurd hid hn⟩
  · rw [hval, if_neg hid]
    exact ⟨rfl, rfl, rfl, rfl, fun _ => rfl⟩

theorem update_preserves_config_fields_witness :
    (applyResult "a" (Except.ok "u") sampleInit).length = sampleInit.length ∧
    (sampleOkShot.id = samplePendingShot.id ∧
      sampleOkShot.shot_type = samplePendingShot.shot_type ∧
      sampleOkShot.aspect_ratio = samplePendingShot.aspect_ratio ∧
      sampleOkShot.prompt = samplePendingShot.prompt ∧
      (samplePendingShot.id ≠ "a" → sampleOkShot = samplePendingShot)) :=
  ⟨(update_preserves_config_fields "a" (Except.ok "u") sampleInit).1,
   (update_preserves_config_fields "a" (Except.ok "u") sampleInit).2
      0 samplePendingShot sampleOkShot (by decide) (by decide)⟩

/-- C10: clearing the session empties the result list, and any sequence of
by-id status updates still arriving from a prior run leaves the cleared
state unchanged: the update only patches records by id and never appends, so
no record from the prior run reappears. -/
theorem clear_session_absorbs_updates (st : AppState)
    (updates : List (String × Except String String)) :
    (handleClear st).shots = [] ∧
    applyUpdates (handleClear st).shots updates = [] := by
  refine ⟨rfl, ?_⟩
  show applyUpdates [] updates = []
  induction updates with
  | nil => rfl
  | cons u us ih => exact ih

/-! ## Helper lemmas: validation (C8) -/

theorem everyTruthy_ok_true_of_all (items : List JsonValue)
    (h : ∀ x ∈ items, itemOk x = Except.ok true) :
    everyTruthy items = Except.ok true := by
  induction items with
  | nil => rfl
  | cons y ys ih =>
    have hy := h y (List.mem_cons_self y ys)
    simp [everyTruthy, hy, ih (fun x hx => h x (List.mem_cons_of_mem y hx))]

theorem everyTruthy_not_ok_true (items : List JsonValue) (x : JsonValue)
    (hx : x ∈ items) (hbad : itemOk x = Except.ok false) :
    everyTruthy items ≠ Except.ok true := by
  induction items with
  | nil => cases hx
  | cons y ys ih =>
    intro h
    rcases List.mem_cons.mp hx with rfl | hx2
    · simp [everyTruthy, hbad] at h
    · cases hy : itemOk y with
      | error e => simp [everyTruthy, hy] at h
      | ok b =>
        cases b with
        | false => simp [everyTruthy, hy] at h
        | true =>
          have h2 : everyTruthy ys = Except.ok true := by
            simpa [everyTruthy, hy] using h
          exact ih hx2 h2

theorem itemOk_missing (fields : List (String × JsonValue))
    (h : fields.reverse.lookup "shot_type" = none ∨
      fields.reverse.lookup "prompt" = none) :
    itemOk (JsonValue.jobj fields) = Except.ok false := by
  rcases h with h | h
  · simp [itemOk, getField, h, truthy]
  · cases hst : fields.reverse.lookup "shot_type" with
    | none => simp [itemOk, getField, hst, truthy]
    | some v =>
      by_cases ht : truthy (some v)
      · simp [itemOk, getField, hst, ht, h, truthy]
      · simp [itemOk, getField, hst, ht]

/-! ## Claim theorems: input validation blocks the run (C8) -/

/-- C8: unparseable input, a non-array value, or an array containing an
object missing shot_type or prompt makes validation fail with a
human-readable message; on any validation failure handleGenerate stores the
message, leaves the result list untouched and performs no generation call
(empty run trace); and an array whose items all pass the field check is
accepted, in particular items without aspect_ratio. -/
theorem invalid_input_blocks_run :
    (validateAndParseJson none = Except.error "Invalid JSON format.") ∧
    (∀ v : JsonValue, (∀ items, v ≠ JsonValue.jarr items) →
      validateAndParseJson (some v)
        = Except.error "JSON must be an array of shot objects.") ∧
    (∀ (items : List JsonValue) (fields : List (String × JsonValue)),
      JsonValue.jobj fields ∈ items →
      (fields.reverse.lookup "shot_type" = none ∨
        fields.reverse.lookup "prompt" = none) →
      ∃ m, validateAndParseJson (some (JsonValue.jarr items)) = Except.error m) ∧
    (∀ (refI : String) (hasKey : Bool) (parsed : Option JsonValue) (ids : Nat → String)
        (net : Nat → Except String String) (st : AppState) (msg : String),
      validateAndParseJson parsed = Except.error msg →
      handleGenerate (some refI) hasKey parsed ids net st
        = ({ st with validationError := some msg }, [])) ∧
    (∀ items : List JsonValue, (∀ x ∈ items, itemOk x = Except.ok true) →
      validateAndParseJson (some (JsonValue.jarr items)) = Except.ok items) := by
  refine ⟨rfl, ?_, ?_, ?_, ?_⟩
  · intro v hv
    cases v with
    | jarr items => exact absurd rfl (hv items)
    | jnull => rfl
    | jbool b => rfl
    | jnum n => rfl
    | jstr s => rfl
    | jobj f => rfl
  · intro items fields hmem hmiss
    have hbad := itemOk_missing fields hmiss
    cases he : everyTruthy items with
    | error e =>
      exact ⟨"Invalid JSON format.", by simp [validateAndParseJson, he]⟩
    | ok b =>
      cases b with
      | true => exact absurd he (everyTruthy_not_ok_true items _ hmem hbad)
      | false =>
        exact ⟨"Each shot must have \x27shot_type\x27 and \x27prompt\x27 fields.",
          by simp [validateAndParseJson, he]⟩
  · intro refI hasKey parsed ids net st msg hv
    simp [handleGenerate, hv]
  · intro items hall
    simp [validateAndParseJson, everyTruthy_ok_true_of_all items hall]

theorem invalid_input_blocks_run_witness :
    (∃ m, validateAndParseJson (some (JsonValue.jarr [sampleBadItem]))
      = Except.error m) ∧
    handleGenerate (some "ref") true (some (JsonValue.jnum 3)) sampleIds sampleNet
        sampleState
      = ({ sampleState with
            validationError := some "JSON must be an array of shot objects." }, []) ∧
    validateAndParseJson (some (JsonValue.jarr [sampleGoodItem]))
      = Except.ok [sampleGoodItem] :=
  ⟨invalid_input_blocks_run.2.2.1 [sampleBadItem]
      [("shot_type", JsonValue.jstr "Wide Shot")]
      (List.mem_singleton.mpr rfl) (Or.inr rfl),
   invalid_input_blocks_run.2.2.2.1 "ref" true (some (JsonValue.jnum 3))
      sampleIds sampleNet sampleState
      "JSON must be an array of shot objects." rfl,
   invalid_input_blocks_run.2.2.2.2 [sampleGoodItem]
      (fun x hx => by rw [List.mem_singleton.mp hx]; rfl)⟩
